import Mathlib

/-!
Verification of the `mcpk` CLI (src/main.ts): a shallow embedding of its
process-registry store and the four commands `start`, `stop`, `status`,
`list`, together with proofs of the specification's testable properties.

Modelling conventions:
* The registry file `~/.mcpk/running.json` holds a JSON object mapping a
  server name to a record; we model the in-memory registry as an
  association list `List (String × ServerRecord)` in insertion order.
  A parsed JSON object has unique keys; JavaScript objects preserve
  insertion order for non-integer-like string keys (integer-like keys
  such as "1" are enumerated first, which no property below depends on).
  Property access `servers[name]` on the parsed object consults the
  `Object.prototype` chain when the name is not an own key, which
  `jsLookup` models; `findServer` is own-key lookup only.
* File writes are tracked by a `saved : Bool` flag on each command's
  result: `saved = true` means `saveRunningServers` was called, with the
  result registry as its argument.  `console.log` / `console.error` calls
  are collected in an `output : List String` field, one element per call.
* OS effects are parameters: the pid returned by `spawn` and the ISO
  timestamp `new Date().toISOString()` are arguments of `startCmd`; the
  outcome of `process.kill` at a pid is an argument of `stopCmd`.
* `new Date(t).toLocaleString()` in `list` is locale dependent and is
  abstracted as a parameter `fmt : String → String` applied to the stored
  `startTime` string.
-/

namespace Mcpk

/-- `REGISTRY_URL` constant from src/main.ts line 9. -/
def REGISTRY_URL : String := "https://registry.mcpk.io"

/-- The descriptor fabricated by `fetchServerInfo` (src/main.ts lines
39-46): `name`, `command`, `args`, `description`, `version`. -/
structure ServerInfo where
  name : String
  command : String
  args : List String
  description : String
  version : String
deriving DecidableEq, Repr

/-- One registry entry (src/main.ts lines 116-120): the spawned `pid`, the
ISO `startTime` string, and the resolved descriptor `info`. -/
structure ServerRecord where
  pid : Nat
  startTime : String
  info : ServerInfo
deriving DecidableEq, Repr

/-- The in-memory registry: the JSON object of `running.json` as an
association list in insertion order. -/
abbrev Registry := List (String × ServerRecord)

/-- Own-property lookup on the parsed JSON object: the record stored
under the name, if the name is one of the object's own keys.  This is
what presence "in the registry" means; the source's `servers[serverName]`
is the full property access modelled by `jsLookup` below. -/
def findServer (servers : Registry) (n : String) : Option ServerRecord :=
  match servers with
  | [] => none
  | p :: rest => if p.1 = n then some p.2 else findServer rest n

/-- The property names a plain object inherits from `Object.prototype` in
Node's realm.  For an absent own key with one of these names,
`servers[name]` yields the inherited member — a function, or
`Object.prototype` itself for `__proto__` — which is truthy and has no
`pid`, `startTime` or `info` fields. -/
def protoKeys : List String :=
  ["constructor", "hasOwnProperty", "isPrototypeOf", "propertyIsEnumerable",
   "toLocaleString", "toString", "valueOf", "__defineGetter__",
   "__defineSetter__", "__lookupGetter__", "__lookupSetter__", "__proto__"]

/-- What the property access `servers[serverName]` yields on the parsed
JSON object: an own key holds a record (which shadows the prototype); an
absent own key colliding with an `Object.prototype` member yields that
inherited truthy value; any other absent key yields `undefined`. -/
inductive LookupResult where
  | record : ServerRecord → LookupResult
  | proto : LookupResult
  | undefinedValue : LookupResult
deriving DecidableEq, Repr

/-- `servers[serverName]` (src/main.ts lines 101, 132, 153): full
JavaScript property access, prototype chain included.  The truthiness
tests of the source succeed on `record` and `proto`, and fail on
`undefinedValue`. -/
def jsLookup (servers : Registry) (n : String) : LookupResult :=
  match findServer servers n with
  | some rec => .record rec
  | none => if n ∈ protoKeys then .proto else .undefinedValue

/-- `servers[serverName] = record` on a name not yet present: JavaScript
appends the new key in insertion order. -/
def insertServer (servers : Registry) (n : String) (v : ServerRecord) : Registry :=
  servers ++ [(n, v)]

/-- `delete servers[serverName]`: the key is removed, every other key is
untouched. -/
def eraseServer (servers : Registry) (n : String) : Registry :=
  servers.filter (fun p => p.1 ≠ n)

/-- `serverName.split('/')` for the one-character separator `'/'`:
accumulate characters until a `'/'`, emitting one field per separator.
JavaScript's `String.prototype.split` with separator `"/"` yields
`["abc"]` on `"abc"`, `[""]` on `""`, `["a", "", "b"]` on `"a//b"`. -/
def splitSlashAux : List Char → List Char → List String
  | [], acc => [String.mk acc.reverse]
  | c :: cs, acc =>
    if c = '/' then String.mk acc.reverse :: splitSlashAux cs []
    else splitSlashAux cs (c :: acc)

/-- `serverName.split('/')` (src/main.ts line 39). -/
def jsSplitSlash (s : String) : List String :=
  splitSlashAux s.data []

/-- The `console.log` line emitted at the top of `fetchServerInfo`
(src/main.ts line 35). -/
def fetchLog (serverName : String) : String :=
  "Fetching information for " ++ serverName ++ " from " ++ REGISTRY_URL ++ "..."

/-- `fetchServerInfo` (src/main.ts lines 34-47).  The destructuring
`const [scope, name] = serverName.split('/')` binds `name` to the second
field of the split, or to JavaScript `undefined` when the split has fewer
than two fields; a template literal renders `undefined` as the text
`"undefined"`, which `Option.getD` reproduces.  The function performs no
network request (the source body is a placeholder). -/
def fetchServerInfo (serverName : String) : ServerInfo :=
  let parts := jsSplitSlash serverName
  let name := parts.get? 1
  { name := serverName
    command := "npx"
    args := ["-y", serverName]
    description := "MCP Server for " ++ name.getD "undefined"
    version := "1.0.0" }

/-- A JSON value, as produced by `JSON.stringify` / consumed by
`JSON.parse` for the data handled by this program (strings, non-negative
integers, arrays, objects in key insertion order). -/
inductive Json where
  | str : String → Json
  | num : Nat → Json
  | arr : List Json → Json
  | obj : List (String × Json) → Json

/-- Field access `j[k]` on a parsed JSON object. -/
def jsonField (k : String) : List (String × Json) → Option Json
  | [] => none
  | (k', v) :: fs => if k' = k then some v else jsonField k fs

/-- The JSON encoding of a descriptor, as laid out by the object literal
in `fetchServerInfo` and serialized by `JSON.stringify`. -/
def encodeInfo (i : ServerInfo) : Json :=
  .obj [("name", .str i.name), ("command", .str i.command),
        ("args", .arr (i.args.map .str)), ("description", .str i.description),
        ("version", .str i.version)]

/-- The JSON encoding of one registry entry, as laid out by the object
literal at src/main.ts lines 116-120. -/
def encodeRecord (r : ServerRecord) : Json :=
  .obj [("pid", .num r.pid), ("startTime", .str r.startTime),
        ("info", encodeInfo r.info)]

/-- `saveRunningServers` (src/main.ts lines 30-32): the registry is
serialized whole (`JSON.stringify(servers, null, 2)`) and written to the
file; we model the file content at the JSON-value level. -/
def saveRunningServers (servers : Registry) : Json :=
  .obj (servers.map (fun p => (p.1, encodeRecord p.2)))

def decodeString : Json → Option String
  | .str s => some s
  | _ => none

def decodeNat : Json → Option Nat
  | .num n => some n
  | _ => none

def decodeStrings : List Json → Option (List String)
  | [] => some []
  | j :: js => do
      let s ← decodeString j
      let rest ← decodeStrings js
      pure (s :: rest)

def decodeStringList : Json → Option (List String)
  | .arr xs => decodeStrings xs
  | _ => none

/-- Reading a descriptor back out of its parsed JSON object. -/
def decodeInfo (j : Json) : Option ServerInfo :=
  match j with
  | .obj fs => do
      let name ← jsonField "name" fs >>= decodeString
      let command ← jsonField "command" fs >>= decodeString
      let args ← jsonField "args" fs >>= decodeStringList
      let description ← jsonField "description" fs >>= decodeString
      let version ← jsonField "version" fs >>= decodeString
      pure ⟨name, command, args, description, version⟩
  | _ => none

/-- Reading one registry entry back out of its parsed JSON object. -/
def decodeRecord (j : Json) : Option ServerRecord :=
  match j with
  | .obj fs => do
      let pid ← jsonField "pid" fs >>= decodeNat
      let startTime ← jsonField "startTime" fs >>= decodeString
      let info ← jsonField "info" fs >>= decodeInfo
      pure ⟨pid, startTime, info⟩
  | _ => none

/-- `getRunningServers` (src/main.ts lines 26-28): `JSON.parse` of the
file content, read back as the registry mapping.  The source does no
schema validation; decoding fails only on a file that does not hold an
object of records, which `JSON.parse` would surface as dynamic-field
errors downstream. -/
def decodeEntries : List (String × Json) → Option Registry
  | [] => some []
  | p :: fs => do
      let r ← decodeRecord p.2
      let rest ← decodeEntries fs
      pure ((p.1, r) :: rest)

def getRunningServers (file : Json) : Option Registry :=
  match file with
  | .obj fs => decodeEntries fs
  | _ => none

/-- `serverName.replace('@', '')` (src/main.ts lines 51 and 61):
JavaScript `String.prototype.replace` with a string pattern replaces only
the FIRST occurrence. -/
def replaceFirstAt : List Char → List Char
  | [] => []
  | c :: cs => if c = '@' then cs else c :: replaceFirstAt cs

def jsReplaceAt (s : String) : String :=
  String.mk (replaceFirstAt s.data)

/-- The two configuration snippets built by `generateConfigExample`
(src/main.ts lines 49-67): `claude` is the object passed to
`JSON.stringify` and printed, `libre` is the YAML-like string. -/
structure ConfigExample where
  claude : Json
  libre : String

/-- `generateConfigExample` (src/main.ts lines 49-67). -/
def generateConfigExample (serverName : String) (serverInfo : ServerInfo) : ConfigExample :=
  let key := jsReplaceAt serverName
  { claude := .obj [("mcpServers",
      .obj [(key, .obj [("command", .str serverInfo.command),
                        ("args", .arr (serverInfo.args.map .str))])])]
    libre := "mcpServers:\n  " ++ key ++ ":\n    command: " ++ serverInfo.command
      ++ "\n    args:\n"
      ++ String.intercalate "\n" (serverInfo.args.map (fun arg => "      - " ++ arg)) }

/-- Observable result of a `start` or `stop` invocation: the in-memory
registry at command end, whether `saveRunningServers` was called (with
that registry), and the console lines printed. -/
structure CmdResult where
  registry : Registry
  saved : Bool
  output : List String
deriving DecidableEq, Repr

/-- The `start <serverName>` action (src/main.ts lines 95-124).  `pid` is
the pid `spawn` returned, `now` the ISO timestamp of `new Date()`.  When
the truthy guard is satisfied by an inherited prototype member, the
printed `servers[serverName].pid` is `undefined`, rendered as text by the
template literal. -/
def startCmd (servers : Registry) (serverName : String) (pid : Nat) (now : String) :
    CmdResult :=
  match jsLookup servers serverName with
  | .record rec =>
      { registry := servers, saved := false,
        output := ["Server " ++ serverName ++ " is already running (PID: "
          ++ toString rec.pid ++ ")"] }
  | .proto =>
      { registry := servers, saved := false,
        output := ["Server " ++ serverName ++ " is already running (PID: "
          ++ "undefined" ++ ")"] }
  | .undefinedValue =>
      let serverInfo := fetchServerInfo serverName
      let servers' := insertServer servers serverName
        { pid := pid, startTime := now, info := serverInfo }
      { registry := servers', saved := true,
        output := [fetchLog serverName, "Starting " ++ serverName ++ "...",
          "Server " ++ serverName ++ " started successfully (PID: " ++ toString pid ++ ")"] }

/-- Outcome of `process.kill(pid)`: normal return, or a thrown error
carrying `err.message`. -/
inductive KillOutcome where
  | success : KillOutcome
  | failure : String → KillOutcome
deriving DecidableEq, Repr

/-- The message of the `TypeError [ERR_INVALID_ARG_TYPE]` Node throws
for `process.kill(undefined)`. -/
def killUndefinedMessage : String :=
  "The \"pid\" argument must be of type number. Received undefined"

/-- The `stop <serverName>` action (src/main.ts lines 126-145).  `kill`
gives the outcome of `process.kill` at each stored pid.  When the truthy
guard is satisfied by an inherited prototype member, `servers[...].pid`
is `undefined` and `process.kill(undefined)` throws before any signal is
sent; the catch prints the error message. -/
def stopCmd (servers : Registry) (serverName : String) (kill : Nat → KillOutcome) :
    CmdResult :=
  match jsLookup servers serverName with
  | .undefinedValue =>
      { registry := servers, saved := false,
        output := ["Server " ++ serverName ++ " is not running"] }
  | .proto =>
      { registry := servers, saved := false,
        output := ["Failed to stop server " ++ serverName ++ ": " ++ killUndefinedMessage] }
  | .record rec =>
      match kill rec.pid with
      | .success =>
          { registry := eraseServer servers serverName, saved := true,
            output := ["Server " ++ serverName ++ " stopped successfully"] }
      | .failure msg =>
          { registry := servers, saved := false,
            output := ["Failed to stop server " ++ serverName ++ ": " ++ msg] }

/-- Observable result of a `status` invocation: the plain console lines
printed before any crash, the configuration snippets printed after them
(present exactly when the server is found), whether any file was written
(`status` never calls `saveRunningServers`; `updateClaudeConfig` is not
reachable from it), and whether the command crashed on an uncaught
exception. -/
structure StatusResult where
  output : List String
  configs : Option ConfigExample
  saved : Bool
  crashed : Bool

/-- The `status <serverName>` action (src/main.ts lines 147-177).  The
`configs.claude` JSON value is printed via `JSON.stringify(·, null, 2)`
after the "Edit your claude_desktop_config.json:" line, and
`configs.libre` after the LibreChat banner.  When the truthy guard is
satisfied by an inherited prototype member, `server.pid` and
`server.startTime` are `undefined` (rendered as text), and the command
then crashes with an uncaught TypeError reading `server.info.description`
of the `undefined` field `server.info`. -/
def statusCmd (servers : Registry) (serverName : String) : StatusResult :=
  match jsLookup servers serverName with
  | .undefinedValue =>
      { output := ["Server " ++ serverName ++ " is not running"],
        configs := none, saved := false, crashed := false }
  | .proto =>
      { output := ["Server: " ++ serverName, "Status: Running",
          "PID: " ++ "undefined", "Started: " ++ "undefined"],
        configs := none, saved := false, crashed := true }
  | .record server =>
      let configs := generateConfigExample serverName server.info
      { output := ["Server: " ++ serverName, "Status: Running",
          "PID: " ++ toString server.pid,
          "Started: " ++ server.startTime,
          "Description: " ++ server.info.description,
          "Version: " ++ server.info.version,
          "\nTo configure in Claude Desktop:", "------------------------------",
          "Edit your claude_desktop_config.json:",
          "\nTo configure in LibreChat:", "-------------------------",
          "Add to your LibreChat YAML configuration:"],
        configs := some configs, saved := false, crashed := false }

/-- The line `list` prints for one entry (src/main.ts line 196); `fmt`
abstracts `new Date(·).toLocaleString()`. -/
def listLine (fmt : String → String) (p : String × ServerRecord) : String :=
  p.1 ++ " (PID: " ++ toString p.2.pid ++ ", Started: " ++ fmt p.2.startTime ++ ")"

/-- The `list` action (src/main.ts lines 179-198): the console lines
printed, one list element per `console.log` call. -/
def listCmd (fmt : String → String) (servers : Registry) : List String :=
  if servers.length = 0 then ["No MCP servers are currently running"]
  else "Running MCP Servers:" :: "-------------------" :: servers.map (listLine fmt)

/-! ## Registry lemmas -/

theorem findServer_append_self (servers : Registry) (n : String) (v : ServerRecord)
    (h : findServer servers n = none) :
    findServer (servers ++ [(n, v)]) n = some v := by
  induction servers with
  | nil => simp [findServer]
  | cons p ps ih =>
    rw [findServer] at h
    rw [List.cons_append, findServer]
    by_cases hp : p.1 = n
    · rw [if_pos hp] at h; exact absurd h (by simp)
    · rw [if_neg hp] at h ⊢; exact ih h

theorem findServer_erase_self (servers : Registry) (n : String) :
    findServer (eraseServer servers n) n = none := by
  induction servers with
  | nil => rfl
  | cons p ps ih =>
    simp only [eraseServer] at ih ⊢
    by_cases hp : p.1 = n
    · simpa [List.filter_cons, hp] using ih
    · simpa [List.filter_cons, hp, findServer] using ih

theorem findServer_erase_ne (servers : Registry) (n m : String) (hm : m ≠ n) :
    findServer (eraseServer servers n) m = findServer servers m := by
  induction servers with
  | nil => rfl
  | cons p ps ih =>
    simp only [eraseServer] at ih ⊢
    have hnm : ¬ n = m := fun e => hm e.symm
    by_cases hp : p.1 = n
    · simpa [List.filter_cons, hp, findServer, hnm] using ih
    · by_cases hq : p.1 = m
      · simp [List.filter_cons, hp, findServer, hq, hm]
      · simpa [List.filter_cons, hp, findServer, hq, hm] using ih

theorem jsLookup_record (servers : Registry) (n : String) (rec : ServerRecord)
    (h : findServer servers n = some rec) :
    jsLookup servers n = LookupResult.record rec := by
  simp [jsLookup, h]

theorem jsLookup_undefined (servers : Registry) (n : String)
    (h1 : findServer servers n = none) (h2 : n ∉ protoKeys) :
    jsLookup servers n = LookupResult.undefinedValue := by
  simp [jsLookup, h1, h2]

/-! ## Claims about start and stop -/

/-- C1 (amended): for a server name not present in the registry and not
the name of an `Object.prototype` member (so that `servers[name]` is
really `undefined`), `start` appends exactly one entry keyed by that
name, holding the spawned pid, the start timestamp and the resolved
descriptor; it persists the updated registry (`saved = true` with the
result registry as the file content), and a subsequent `list` prints a
line carrying that name and that pid. -/
theorem start_new_server (servers : Registry) (n : String) (pid : Nat) (now : String)
    (fmt : String → String) (h : findServer servers n = none) (hp : n ∉ protoKeys) :
    (startCmd servers n pid now).registry
      = servers ++ [(n, ⟨pid, now, fetchServerInfo n⟩)] ∧
    findServer (startCmd servers n pid now).registry n
      = some ⟨pid, now, fetchServerInfo n⟩ ∧
    (startCmd servers n pid now).saved = true ∧
    (n ++ " (PID: " ++ toString pid ++ ", Started: " ++ fmt now ++ ")")
      ∈ listCmd fmt (startCmd servers n pid now).registry := by
  have hu := jsLookup_undefined servers n h hp
  have hreg : (startCmd servers n pid now).registry
      = servers ++ [(n, ⟨pid, now, fetchServerInfo n⟩)] := by
    simp [startCmd, hu, insertServer]
  refine ⟨hreg, ?_, ?_, ?_⟩
  · rw [hreg]; exact findServer_append_self servers n _ h
  · simp [startCmd, hu]
  · rw [hreg]
    have hlen : ¬ (servers ++ [(n, (⟨pid, now, fetchServerInfo n⟩ : ServerRecord))]).length = 0 := by
      simp
    rw [listCmd, if_neg hlen]
    have hmem : (n, (⟨pid, now, fetchServerInfo n⟩ : ServerRecord))
        ∈ servers ++ [(n, ⟨pid, now, fetchServerInfo n⟩)] :=
      List.mem_append_right _ (List.mem_singleton_self _)
    exact List.mem_cons_of_mem _ (List.mem_cons_of_mem _ (List.mem_map_of_mem _ hmem))

/-- C1 witness: starting `alice/demo` on the empty registry. -/
theorem start_new_server_witness :
    findServer [] "alice/demo" = none ∧
    "alice/demo" ∉ protoKeys ∧
    ((startCmd [] "alice/demo" 4242 "2025-01-01T00:00:00.000Z").registry
      = [] ++ [("alice/demo", ⟨4242, "2025-01-01T00:00:00.000Z", fetchServerInfo "alice/demo"⟩)] ∧
    findServer (startCmd [] "alice/demo" 4242 "2025-01-01T00:00:00.000Z").registry "alice/demo"
      = some ⟨4242, "2025-01-01T00:00:00.000Z", fetchServerInfo "alice/demo"⟩ ∧
    (startCmd [] "alice/demo" 4242 "2025-01-01T00:00:00.000Z").saved = true ∧
    ("alice/demo" ++ " (PID: " ++ toString 4242 ++ ", Started: "
        ++ id "2025-01-01T00:00:00.000Z" ++ ")")
      ∈ listCmd id (startCmd [] "alice/demo" 4242 "2025-01-01T00:00:00.000Z").registry) :=
  ⟨rfl, by decide,
    start_new_server [] "alice/demo" 4242 "2025-01-01T00:00:00.000Z" id rfl (by decide)⟩

/-- C1 counterexample: `toString` is not a key of the empty registry, yet
`start` finds the inherited `Object.prototype.toString` truthy, prints
the already-running message with `PID: undefined`, adds no entry, saves
nothing, and a subsequent `list` still prints the empty-state message. -/
theorem start_proto_counterexample :
    findServer [] "toString" = none ∧
    startCmd [] "toString" 4242 "2025-01-01T00:00:00.000Z"
      = { registry := [], saved := false,
          output := ["Server toString is already running (PID: undefined)"] } ∧
    listCmd id ([] : Registry) = ["No MCP servers are currently running"] :=
  ⟨rfl, by decide, rfl⟩

/-- C2: for a server name already present, `start` is a no-op on the
registry: nothing is written (`saved = false`), the registry is returned
unchanged, and the single printed line is the already-running message
carrying the pid stored for that name. -/
theorem start_already_running (servers : Registry) (n : String) (pid : Nat)
    (now : String) (rec : ServerRecord) (h : findServer servers n = some rec) :
    startCmd servers n pid now
      = { registry := servers, saved := false,
          output := ["Server " ++ n ++ " is already running (PID: "
            ++ toString rec.pid ++ ")"] } := by
  simp [startCmd, jsLookup_record servers n rec h]

/-- A concrete descriptor, record and one-entry registry used to
instantiate the universally quantified theorems. -/
def sampleInfo : ServerInfo := fetchServerInfo "alice/demo"

def sampleRecord : ServerRecord :=
  { pid := 4242, startTime := "2025-01-01T00:00:00.000Z", info := sampleInfo }

def sampleRegistry : Registry := [("alice/demo", sampleRecord)]

/-- C2 witness: starting `alice/demo` when it is already registered. -/
theorem start_already_running_witness :
    findServer sampleRegistry "alice/demo" = some sampleRecord ∧
    startCmd sampleRegistry "alice/demo" 7 "2025-02-02T00:00:00.000Z"
      = { registry := sampleRegistry, saved := false,
          output := ["Server " ++ "alice/demo" ++ " is already running (PID: "
            ++ toString sampleRecord.pid ++ ")"] } :=
  ⟨rfl, start_already_running sampleRegistry "alice/demo" 7 "2025-02-02T00:00:00.000Z"
    sampleRecord rfl⟩

/-- C5 (amended): stopping a server name absent from the registry that is
not the name of an `Object.prototype` member (so that `servers[name]` is
really `undefined`) prints the not-running message and performs no write:
`saveRunningServers` is not called and the in-memory registry is returned
unchanged, so the file keeps its previous content. -/
theorem stop_absent (servers : Registry) (n : String) (kill : Nat → KillOutcome)
    (h : findServer servers n = none) (hp : n ∉ protoKeys) :
    stopCmd servers n kill
      = { registry := servers, saved := false,
          output := ["Server " ++ n ++ " is not running"] } := by
  simp [stopCmd, jsLookup_undefined servers n h hp]

/-- C5 witness: stopping `bob/other` on the one-entry sample registry. -/
theorem stop_absent_witness :
    findServer sampleRegistry "bob/other" = none ∧
    "bob/other" ∉ protoKeys ∧
    stopCmd sampleRegistry "bob/other" (fun _ => KillOutcome.success)
      = { registry := sampleRegistry, saved := false,
          output := ["Server " ++ "bob/other" ++ " is not running"] } :=
  ⟨by decide, by decide, stop_absent sampleRegistry "bob/other"
    (fun _ => KillOutcome.success) (by decide) (by decide)⟩

/-- C5 counterexample: `toString` is not a key of the empty registry, yet
`stop` does not print the not-running message: the inherited prototype
member passes the truthy guard, `process.kill(undefined)` throws, and the
catch prints the failure message (no write happens either way). -/
theorem stop_proto_counterexample :
    findServer [] "toString" = none ∧
    stopCmd [] "toString" (fun _ => KillOutcome.success)
      = { registry := [], saved := false,
          output := ["Failed to stop server toString: " ++ killUndefinedMessage] } ∧
    stopCmd [] "toString" (fun _ => KillOutcome.success)
      ≠ { registry := [], saved := false,
          output := ["Server toString is not running"] } :=
  ⟨rfl, by decide, by decide⟩

/-- C3: when the server is present but `process.kill` on its stored pid
throws, `stop` prints the failure message (with the error text) and leaves
the registry untouched: no entry is removed and the file is not
rewritten (`saved = false`). -/
theorem stop_kill_failure (servers : Registry) (n : String) (rec : ServerRecord)
    (kill : Nat → KillOutcome) (msg : String)
    (h : findServer servers n = some rec) (hk : kill rec.pid = KillOutcome.failure msg) :
    stopCmd servers n kill
      = { registry := servers, saved := false,
          output := ["Failed to stop server " ++ n ++ ": " ++ msg] } := by
  simp [stopCmd, jsLookup_record servers n rec h, hk]

/-- C3 witness: a kill that throws EPERM on the sample registry. -/
theorem stop_kill_failure_witness :
    findServer sampleRegistry "alice/demo" = some sampleRecord ∧
    (fun _ : Nat => KillOutcome.failure "kill EPERM") sampleRecord.pid
      = KillOutcome.failure "kill EPERM" ∧
    stopCmd sampleRegistry "alice/demo" (fun _ => KillOutcome.failure "kill EPERM")
      = { registry := sampleRegistry, saved := false,
          output := ["Failed to stop server " ++ "alice/demo" ++ ": " ++ "kill EPERM"] } :=
  ⟨rfl, rfl, stop_kill_failure sampleRegistry "alice/demo" sampleRecord
    (fun _ => KillOutcome.failure "kill EPERM") "kill EPERM" rfl rfl⟩

/-- C4 (amended): when the server is present and `process.kill` on its
stored pid returns normally, `stop` removes exactly that entry and
persists the registry without it (`saved = true`); afterwards the name is
no longer found and every other name maps to the same record as before;
and, provided the name is not that of an `Object.prototype` member, a
subsequent `status` prints the not-running message. -/
theorem stop_success (servers : Registry) (n : String) (rec : ServerRecord)
    (kill : Nat → KillOutcome)
    (h : findServer servers n = some rec) (hk : kill rec.pid = KillOutcome.success) :
    stopCmd servers n kill
      = { registry := eraseServer servers n, saved := true,
          output := ["Server " ++ n ++ " stopped successfully"] } ∧
    findServer (stopCmd servers n kill).registry n = none ∧
    (n ∉ protoKeys →
      (statusCmd (stopCmd servers n kill).registry n).output
        = ["Server " ++ n ++ " is not running"]) ∧
    ∀ m, m ≠ n → findServer (stopCmd servers n kill).registry m = findServer servers m := by
  have hstop : stopCmd servers n kill
      = { registry := eraseServer servers n, saved := true,
          output := ["Server " ++ n ++ " stopped successfully"] } := by
    simp [stopCmd, jsLookup_record servers n rec h, hk]
  have hfind : findServer (stopCmd servers n kill).registry n = none := by
    rw [hstop]; exact findServer_erase_self servers n
  refine ⟨hstop, hfind, ?_, ?_⟩
  · intro hp
    simp [statusCmd, jsLookup_undefined _ n hfind hp]
  · intro m hmn
    rw [hstop]
    exact findServer_erase_ne servers n m hmn

/-- C4 witness: a successful kill on the sample registry; the entry is
gone, `status` reports not-running, and a different name is unaffected. -/
theorem stop_success_witness :
    findServer sampleRegistry "alice/demo" = some sampleRecord ∧
    (fun _ : Nat => KillOutcome.success) sampleRecord.pid = KillOutcome.success ∧
    "alice/demo" ∉ protoKeys ∧
    stopCmd sampleRegistry "alice/demo" (fun _ => KillOutcome.success)
      = { registry := eraseServer sampleRegistry "alice/demo", saved := true,
          output := ["Server " ++ "alice/demo" ++ " stopped successfully"] } ∧
    findServer (stopCmd sampleRegistry "alice/demo" (fun _ => KillOutcome.success)).registry
      "alice/demo" = none ∧
    (statusCmd (stopCmd sampleRegistry "alice/demo" (fun _ => KillOutcome.success)).registry
      "alice/demo").output = ["Server " ++ "alice/demo" ++ " is not running"] ∧
    ∀ m, m ≠ "alice/demo" →
      findServer (stopCmd sampleRegistry "alice/demo" (fun _ => KillOutcome.success)).registry m
        = findServer sampleRegistry m := by
  obtain ⟨h1, h2, h3, h4⟩ := stop_success sampleRegistry "alice/demo" sampleRecord
    (fun _ => KillOutcome.success) rfl rfl
  exact ⟨rfl, rfl, by decide, h1, h2, h3 (by decide), h4⟩

def protoRecord : ServerRecord :=
  { pid := 9, startTime := "2025-04-04T00:00:00.000Z", info := fetchServerInfo "toString" }

def protoRegistry : Registry := [("toString", protoRecord)]

/-- C4 counterexample: with the key `toString` registered (the loaded
file is not validated, so any key is reachable), a successful stop
removes the entry and saves — but the subsequent `status` does not report
not-running: the inherited prototype member passes the truthy guard, so
it prints `Status: Running` with undefined pid and start time and then
crashes reading `server.info.description`. -/
theorem stop_success_status_counterexample :
    findServer protoRegistry "toString" = some protoRecord ∧
    (stopCmd protoRegistry "toString" (fun _ => KillOutcome.success)).registry = [] ∧
    (stopCmd protoRegistry "toString" (fun _ => KillOutcome.success)).saved = true ∧
    (statusCmd (stopCmd protoRegistry "toString" (fun _ => KillOutcome.success)).registry
        "toString").output
      = ["Server: toString", "Status: Running", "PID: undefined", "Started: undefined"] ∧
    (statusCmd (stopCmd protoRegistry "toString" (fun _ => KillOutcome.success)).registry
        "toString").crashed = true ∧
    (statusCmd (stopCmd protoRegistry "toString" (fun _ => KillOutcome.success)).registry
        "toString").output ≠ ["Server toString is not running"] :=
  ⟨by decide, by decide, by decide, by decide, by decide, by decide⟩

/-! ## Descriptor resolution -/

theorem splitSlashAux_no_slash (l : List Char) : ∀ acc, '/' ∉ l →
    splitSlashAux l acc = [String.mk (acc.reverse ++ l)] := by
  induction l with
  | nil => intro acc _; simp [splitSlashAux]
  | cons c cs ih =>
    intro acc h
    have hc : ¬ c = '/' := fun e => h (by simp [e])
    rw [splitSlashAux, if_neg hc, ih (c :: acc) (fun m => h (List.mem_cons_of_mem _ m))]
    simp

theorem splitSlashAux_append (l1 : List Char) : ∀ (l2 acc : List Char), '/' ∉ l1 →
    splitSlashAux (l1 ++ '/' :: l2) acc
      = String.mk (acc.reverse ++ l1) :: splitSlashAux l2 [] := by
  induction l1 with
  | nil => intro l2 acc _; simp [splitSlashAux]
  | cons c cs ih =>
    intro l2 acc h
    have hc : ¬ c = '/' := fun e => h (by simp [e])
    rw [List.cons_append, splitSlashAux, if_neg hc,
      ih l2 (c :: acc) (fun m => h (List.mem_cons_of_mem _ m))]
    simp

theorem jsSplitSlash_scope_name (scope name : String)
    (h1 : '/' ∉ scope.data) (h2 : '/' ∉ name.data) :
    jsSplitSlash (scope ++ "/" ++ name) = [scope, name] := by
  have hdata : (scope ++ "/" ++ name).data = scope.data ++ '/' :: name.data := by
    simp [String.data_append]
  rw [jsSplitSlash, hdata, splitSlashAux_append scope.data name.data [] h1,
    splitSlashAux_no_slash name.data [] h2]
  simp

/-- C6: for a server identifier of the shape `scope/name` (the
concatenation of a slash-free scope, a slash, and a slash-free name),
`fetchServerInfo` deterministically returns command `npx`, args
`["-y", <full identifier>]`, name equal to the full identifier,
description `MCP Server for <name>`, and version `1.0.0`.  The embedding
is a pure function: the source body performs no network request, only the
`fetchLog` console line. -/
theorem fetchServerInfo_scope_name (scope name : String)
    (h1 : '/' ∉ scope.data) (h2 : '/' ∉ name.data) :
    fetchServerInfo (scope ++ "/" ++ name)
      = { name := scope ++ "/" ++ name, command := "npx",
          args := ["-y", scope ++ "/" ++ name],
          description := "MCP Server for " ++ name, version := "1.0.0" } := by
  simp [fetchServerInfo, jsSplitSlash_scope_name scope name h1 h2]

/-- C6 witness: resolving `alice/demo`. -/
theorem fetchServerInfo_scope_name_witness :
    '/' ∉ ("alice" : String).data ∧ '/' ∉ ("demo" : String).data ∧
    fetchServerInfo ("alice" ++ "/" ++ "demo")
      = { name := "alice" ++ "/" ++ "demo", command := "npx",
          args := ["-y", "alice" ++ "/" ++ "demo"],
          description := "MCP Server for " ++ "demo", version := "1.0.0" } :=
  ⟨by decide, by decide, fetchServerInfo_scope_name "alice" "demo" (by decide) (by decide)⟩

/-- C10: for a server identifier containing no slash, `fetchServerInfo`
still returns a full descriptor; the destructured second field of the
split is JavaScript `undefined`, so the templated description is the
literal `MCP Server for undefined`. -/
theorem fetchServerInfo_no_slash (serverName : String) (h : '/' ∉ serverName.data) :
    fetchServerInfo serverName
      = { name := serverName, command := "npx", args := ["-y", serverName],
          description := "MCP Server for undefined", version := "1.0.0" } := by
  have hsplit : jsSplitSlash serverName = [serverName] := by
    rw [jsSplitSlash, splitSlashAux_no_slash serverName.data [] h]
    simp
  simp [fetchServerInfo, hsplit]

/-- C10 witness: resolving the slash-free identifier `demo`. -/
theorem fetchServerInfo_no_slash_witness :
    '/' ∉ ("demo" : String).data ∧
    fetchServerInfo "demo"
      = { name := "demo", command := "npx", args := ["-y", "demo"],
          description := "MCP Server for undefined", version := "1.0.0" } :=
  ⟨by decide, fetchServerInfo_no_slash "demo" (by decide)⟩

/-! ## Persistence round-trip -/

theorem decodeStringList_encode (xs : List String) :
    decodeStringList (Json.arr (xs.map Json.str)) = some xs := by
  simp only [decodeStringList]
  induction xs with
  | nil => rfl
  | cons x xs ih =>
    simp only [List.map_cons, decodeStrings] at ih ⊢
    simp [decodeString, ih]

theorem decodeInfo_encodeInfo (i : ServerInfo) : decodeInfo (encodeInfo i) = some i := by
  simp [decodeInfo, encodeInfo, jsonField, decodeString, decodeStringList_encode]

theorem decodeRecord_encodeRecord (r : ServerRecord) :
    decodeRecord (encodeRecord r) = some r := by
  simp [decodeRecord, encodeRecord, jsonField, decodeNat, decodeString,
    decodeInfo_encodeInfo]

/-- C7: persistence round-trip — for every registry mapping, writing it
with `saveRunningServers` (the `JSON.stringify` layout of the record
literals) and reading the file back with `getRunningServers` yields
exactly the same mapping: same names, in order, each with the same pid,
start timestamp and descriptor. -/
theorem getRunningServers_saveRunningServers (servers : Registry) :
    getRunningServers (saveRunningServers servers) = some servers := by
  simp only [getRunningServers, saveRunningServers]
  induction servers with
  | nil => rfl
  | cons p ps ih =>
    simp only [List.map_cons, decodeEntries] at ih ⊢
    simp [decodeRecord_encodeRecord, ih]

/-! ## The status configuration snippet -/

/-- Modelled from the spec's words, for comparison only: the server name
"with `@` removed", read as removing every occurrence of the character. -/
def specStripAt (s : String) : String :=
  String.mk (s.data.filter (fun c => c ≠ '@'))

/-- The single key of the object nested under `mcpServers` in the printed
Claude snippet. -/
def claudeTopKey : Option ConfigExample → Option String
  | some cfg =>
      match cfg.claude with
      | .obj [(_, .obj [(k, _)])] => some k
      | _ => none
  | none => none

def atInfo : ServerInfo := fetchServerInfo "a@b@c"

def atRegistry : Registry :=
  [("a@b@c", { pid := 7, startTime := "2025-03-03T00:00:00.000Z", info := atInfo })]

/-- C8 counterexample: for the registered name `a@b@c`, the key of the
snippet `status` prints is `ab@c` — JavaScript `replace('@','')` removes
only the first occurrence — while the name with `@` removed is `abc`, so
the printed object is not the claimed one. -/
theorem status_config_key_counterexample :
    claudeTopKey ((statusCmd atRegistry "a@b@c").configs) = some "ab@c" ∧
    specStripAt "a@b@c" = "abc" ∧
    claudeTopKey ((statusCmd atRegistry "a@b@c").configs) ≠ some (specStripAt "a@b@c") :=
  ⟨by decide, by decide, by decide⟩

/-- C8 (amended): for every server name present in the registry, the JSON
configuration snippet printed by `status` is exactly the object
`mcpServers` → key → command/args taken from the stored descriptor, where
the key is the server name with its first `@` removed (JavaScript
`replace('@', '')` replaces only the first occurrence); `status` writes
no file. -/
theorem status_config_snippet (servers : Registry) (n : String) (rec : ServerRecord)
    (h : findServer servers n = some rec) :
    ((statusCmd servers n).configs.map ConfigExample.claude)
      = some (Json.obj [("mcpServers", Json.obj [(jsReplaceAt n,
          Json.obj [("command", Json.str rec.info.command),
                    ("args", Json.arr (rec.info.args.map Json.str))])])]) ∧
    (statusCmd servers n).saved = false := by
  simp [statusCmd, jsLookup_record servers n rec h, generateConfigExample]

/-- C8 witness: the snippet printed for the registered `alice/demo`. -/
theorem status_config_snippet_witness :
    findServer sampleRegistry "alice/demo" = some sampleRecord ∧
    (((statusCmd sampleRegistry "alice/demo").configs.map ConfigExample.claude)
      = some (Json.obj [("mcpServers", Json.obj [(jsReplaceAt "alice/demo",
          Json.obj [("command", Json.str sampleRecord.info.command),
                    ("args", Json.arr (sampleRecord.info.args.map Json.str))])])]) ∧
    (statusCmd sampleRegistry "alice/demo").saved = false) :=
  ⟨rfl, status_config_snippet sampleRegistry "alice/demo" sampleRecord rfl⟩

/-! ## The list command -/

/-- C9 counterexample: on the one-entry sample registry, `list` prints 3
console lines (title, separator, one server line), none containing a
newline character — not exactly N = 1 lines as claimed. -/
theorem listCmd_counterexample :
    sampleRegistry.length = 1 ∧
    (listCmd id sampleRegistry).length = 3 ∧
    (∀ l ∈ listCmd id sampleRegistry, '\n' ∉ l.data) ∧
    (listCmd id sampleRegistry).length ≠ sampleRegistry.length :=
  ⟨rfl, by decide, by decide, by decide⟩

/-- C9 (amended): `list` on an empty registry prints only the empty-state
line; on a registry with N > 0 entries it prints the two header lines
followed by exactly N lines, one per server in registry order, each
carrying that server's name and stored pid (and its formatted start
time). -/
theorem listCmd_spec (fmt : String → String) (servers : Registry) :
    (servers.length = 0 →
      listCmd fmt servers = ["No MCP servers are currently running"]) ∧
    (servers.length ≠ 0 →
      listCmd fmt servers
        = "Running MCP Servers:" :: "-------------------" :: servers.map (listLine fmt) ∧
      (listCmd fmt servers).length = servers.length + 2 ∧
      ∀ p ∈ servers, listLine fmt p
        = p.1 ++ " (PID: " ++ toString p.2.pid ++ ", Started: "
          ++ fmt p.2.startTime ++ ")") := by
  constructor
  · intro h; rw [listCmd, if_pos h]
  · intro h
    refine ⟨by rw [listCmd, if_neg h], ?_, fun p _ => rfl⟩
    rw [listCmd, if_neg h]
    simp only [List.length_cons, List.length_map]

/-- C9 witness: the empty registry and the one-entry sample registry. -/
theorem listCmd_spec_witness :
    (([] : Registry).length = 0 ∧
      listCmd id [] = ["No MCP servers are currently running"]) ∧
    (sampleRegistry.length ≠ 0 ∧
      (listCmd id sampleRegistry).length = sampleRegistry.length + 2) :=
  ⟨⟨rfl, (listCmd_spec id []).1 rfl⟩,
   ⟨by decide, ((listCmd_spec id sampleRegistry).2 (by decide)).2.1⟩⟩

end Mcpk
